import Mathlib

/-!
Verification of the mindthegap image-bundle orchestration
(`cmd/create/imagebundle`, function `NewCommand`): manifest-list
resolution, the ARM64 variant fallback, digest- vs tag-qualified copy
planning, the destination manifest-list publish decision, fail-fast
error propagation, and command-level resource handling.

The Go source is embedded shallowly: the per-platform loop body becomes
a pure state-transition function, the nested registry/image/tag loops
become folds, and the external skopeo calls become an explicit
environment of `Except`-valued oracles so that fail-fast behaviour is
observable as a trace of emitted events.
-/

namespace ImageBundle

/-- A requested platform, the `platform` value type behind the
`--platform <os>/<arch>[/<variant>]` flag. -/
structure Platform where
  os : String
  arch : String
  variant : String
deriving DecidableEq, Repr

/-- Modelled from the spec: the `platform` type's `String()` method is
defined in a file outside this fragment.  Per the spec, the canonical
string form is `os/arch`, with `/variant` appended only when the
variant is non-empty. -/
def Platform.toString (p : Platform) : String :=
  if p.variant = "" then p.os ++ "/" ++ p.arch
  else p.os ++ "/" ++ p.arch ++ "/" ++ p.variant

/-- The platform fields of one manifest-list entry
(`manifestlist.ManifestDescriptor.Platform`). -/
structure ManifestPlatform where
  os : String
  architecture : String
  variant : String
deriving DecidableEq, Repr

/-- One entry of a source manifest list
(`manifestlist.ManifestDescriptor`): the digest may be empty. -/
structure ManifestDescriptor where
  digest : String
  platform : ManifestPlatform
deriving DecidableEq, Repr

/-- The canonical key computed for a source manifest entry
(lines 138-141): `os/arch`, plus `/variant` when the entry's variant is
non-empty. -/
def srcManifestPlatform (m : ManifestDescriptor) : String :=
  let s := m.platform.os ++ "/" ++ m.platform.architecture
  if m.platform.variant ≠ "" then s ++ "/" ++ m.platform.variant else s

/-- The `platformManifests` map (lines 136-143), modelled as the lookup
function produced by inserting each entry in sequence: a later entry
with the same key overwrites an earlier one, exactly as Go map
assignment does. -/
def platformManifests (ms : List ManifestDescriptor) :
    String → Option ManifestDescriptor :=
  ms.foldl (fun acc m => fun k =>
    if k = srcManifestPlatform m then some m else acc k) (fun _ => none)

/-- Outcome of resolving one requested platform against the index
(lines 146-156): the effective platform value (the loop variable `p`
after a possible `p.variant = "v8"` assignment), the manifest found (if
any), and whether the ARM64 fallback assignment was performed. -/
structure PlatformResolution where
  p : Platform
  manifest : Option ManifestDescriptor
  fallbackApplied : Bool
deriving DecidableEq, Repr

/-- Lines 147-156: look up the requested platform; if absent, assign
`p.variant = "v8"` when `p.arch == "arm64"` (and only then), then look
up again with the (possibly updated) platform. -/
def resolvePlatform (idx : String → Option ManifestDescriptor)
    (p0 : Platform) : PlatformResolution :=
  match idx p0.toString with
  | some m => ⟨p0, some m, false⟩
  | none =>
    if p0.arch = "arm64" then
      let p : Platform := { p0 with variant := "v8" }
      ⟨p, idx p.toString, true⟩
    else
      ⟨p0, idx p0.toString, false⟩

/-- A planned skopeo copy invocation: source and destination references
plus the platform-filter options `skopeo.OS/Arch/Variant` (line 172). -/
structure CopyRequest where
  src : String
  dst : String
  filterOS : String
  filterArch : String
  filterVariant : String
deriving DecidableEq, Repr

/-- The digest the loop body reads off a resolution: the found
manifest's digest, or the Go zero value `""` when the lookup failed
(line 158 reads `platformManifest.Digest` of the zero-value struct). -/
def resolvedDigest (r : PlatformResolution) : String :=
  match r.manifest with
  | some m => m.digest
  | none => ""

/-- Lines 157-173: compute `digestFound`, build the tag-qualified
references, overwrite them with digest-qualified references when a
non-empty digest was found, and attach the platform filter from the
effective (possibly mutated) platform value. -/
def planCopy (registryName imageName imageTag regAddress : String)
    (r : PlatformResolution) : CopyRequest × Bool :=
  let digest := resolvedDigest r
  let digestFound : Bool := digest ≠ ""
  let src :=
    if digestFound then
      "docker://" ++ registryName ++ "/" ++ imageName ++ "@" ++ digest
    else
      "docker://" ++ registryName ++ "/" ++ imageName ++ ":" ++ imageTag
  let dst :=
    if digestFound then
      "docker://" ++ regAddress ++ "/" ++ imageName ++ "@" ++ digest
    else
      "docker://" ++ regAddress ++ "/" ++ imageName ++ ":" ++ imageTag
  (⟨src, dst, r.p.os, r.p.arch, r.p.variant⟩, digestFound)

/-- The state threaded through the per-tag platform loop
(lines 145-185): the `digestFound` flag (declared once at line 145 and
reassigned each iteration at line 158), the accumulated destination
manifest-list entries, the copy requests issued so far, and the
platforms warned about (line 154). -/
structure TagState where
  digestFound : Bool
  manifests : List ManifestDescriptor
  copies : List CopyRequest
  warnings : List Platform
deriving DecidableEq, Repr

def initTagState : TagState := ⟨false, [], [], []⟩

/-- One iteration of the platform loop (lines 146-184): resolve the
platform, plan the copy, record a warning when unresolved, and append
the found manifest to the destination list only when `digestFound`. -/
def processPlatform (idx : String → Option ManifestDescriptor)
    (registryName imageName imageTag regAddress : String)
    (st : TagState) (p : Platform) : TagState :=
  let r := resolvePlatform idx p
  let (req, digestFound) := planCopy registryName imageName imageTag regAddress r
  { digestFound := digestFound
    manifests :=
      if digestFound then st.manifests ++ r.manifest.toList else st.manifests
    copies := st.copies ++ [req]
    warnings :=
      if r.manifest.isNone then st.warnings ++ [r.p] else st.warnings }

/-- The whole platform loop for one tag (lines 145-185), assuming every
copy succeeds. -/
def processTag (idx : String → Option ManifestDescriptor)
    (registryName imageName imageTag regAddress : String)
    (ps : List Platform) : TagState :=
  ps.foldl (processPlatform idx registryName imageName imageTag regAddress)
    initTagState

/-- Line 186: the destination manifest list is published iff the
`digestFound` flag is set after the loop. -/
def shouldPublish (st : TagState) : Bool := st.digestFound

/-- The external skopeo calls the orchestration depends on, as
`Except`-valued oracles (`InspectManifest`, `Copy`, `CopyManifest`). -/
structure Env where
  inspect : String → Except String (List ManifestDescriptor)
  copy : CopyRequest → Except String Unit
  copyManifest : List ManifestDescriptor → String → Except String Unit

/-- An observable external call performed by the orchestration. -/
inductive Event where
  | inspect (ref : String)
  | copy (src dst : String)
  | copyManifest (dst : String)
deriving DecidableEq, Repr

/-- The platform loop with the copy tool in the loop (lines 146-185):
each iteration plans and issues one copy; on a copy error the function
returns that error at once (line 178), emitting no further event. -/
def runPlatforms (env : Env) (idx : String → Option ManifestDescriptor)
    (registryName imageName imageTag regAddress : String) :
    TagState → List Platform → List Event × Except String TagState
  | st, [] => ([], Except.ok st)
  | st, p :: ps =>
    let req := (planCopy registryName imageName imageTag regAddress
      (resolvePlatform idx p)).1
    match env.copy req with
    | Except.error e => ([Event.copy req.src req.dst], Except.error e)
    | Except.ok _ =>
      let rest := runPlatforms env idx registryName imageName imageTag
        regAddress (processPlatform idx registryName imageName imageTag
          regAddress st p) ps
      (Event.copy req.src req.dst :: rest.1, rest.2)

/-- One (registry, image, tag) triple: inspect the source manifest list
(lines 126-133), build the index, run the platform loop, and publish
the destination manifest list iff `digestFound` (lines 186-201).
Inspect and manifest-publish errors return immediately. -/
def runTag (env : Env) (registryName imageName imageTag regAddress : String)
    (ps : List Platform) : List Event × Except String Unit :=
  let srcRef := "docker://" ++ registryName ++ "/" ++ imageName ++ ":" ++
    imageTag
  match env.inspect srcRef with
  | Except.error e => ([Event.inspect srcRef], Except.error e)
  | Except.ok ms =>
    let res := runPlatforms env (platformManifests ms) registryName imageName
      imageTag regAddress initTagState ps
    match res.2 with
    | Except.error e => (Event.inspect srcRef :: res.1, Except.error e)
    | Except.ok st =>
      if shouldPublish st then
        let dst := "docker://" ++ regAddress ++ "/" ++ imageName ++ ":" ++
          imageTag
        match env.copyManifest st.manifests dst with
        | Except.error e =>
          (Event.inspect srcRef :: res.1 ++ [Event.copyManifest dst],
            Except.error e)
        | Except.ok _ =>
          (Event.inspect srcRef :: res.1 ++ [Event.copyManifest dst],
            Except.ok ())
      else (Event.inspect srcRef :: res.1, Except.ok ())

/-- One (registry, image, tag) triple of the nested loops at
lines 97-205, flattened in iteration order. -/
structure TagRef where
  registryName : String
  imageName : String
  imageTag : String
deriving DecidableEq, Repr

/-- The nested registry/image/tag loops (lines 97-205): tags are
processed in order, and an error from any tag is returned immediately,
so no later tag, image or registry is touched. -/
def runTags (env : Env) (regAddress : String) (ps : List Platform) :
    List TagRef → List Event × Except String Unit
  | [] => ([], Except.ok ())
  | c :: cs =>
    let res := runTag env c.registryName c.imageName c.imageTag regAddress ps
    match res.2 with
    | Except.error e => (res.1, Except.error e)
    | Except.ok _ =>
      let rest := runTags env regAddress ps cs
      (res.1 ++ rest.1, rest.2)

/-- The platform loop of one tag with the requested-platforms slice
threaded through explicitly: Go's `for _, p := range platforms` yields
a copy of each element, and the loop body (which may assign to its
local copy `p` at line 150) never writes back to the slice, so the
slice is returned unchanged next to the final loop state. -/
def platformLoop (idx : String → Option ManifestDescriptor)
    (registryName imageName imageTag regAddress : String)
    (platforms : List Platform) (st : TagState) :
    List Platform × TagState :=
  (platforms,
    platforms.foldl
      (processPlatform idx registryName imageName imageTag regAddress) st)

/-- All tags of the run with the operator-supplied platforms slice
threaded from each tag to the next, mirroring that the same `platforms`
variable is re-read by every iteration of the nested loops.
`inspectRes` abstracts the manifest list reported for each tag. -/
def processAllTags (inspectRes : TagRef → List ManifestDescriptor)
    (regAddress : String) :
    List TagRef → List Platform → List Platform × List TagState
  | [], platforms => (platforms, [])
  | c :: cs, platforms =>
    let one := platformLoop (platformManifests (inspectRes c))
      c.registryName c.imageName c.imageTag regAddress platforms initTagState
    let rest := processAllTags inspectRes regAddress cs one.1
    (rest.1, one.2 :: rest.2)

/-- Outcome of `os.Stat(outputFile)` at line 43: the file exists
(`err == nil`), does not exist (`os.ErrNotExist`), or the stat itself
failed with some other error. -/
inductive StatResult where
  | found
  | notFound
  | statFailed (e : String)
deriving DecidableEq, Repr

/-- An observable step of the command body (lines 41-218). -/
inductive Action where
  | statOutputFile
  | parseConfig
  | mkTempDir
  | removeTempDir
  | startRegistry
  | copyImages
  | writeSanitizedConfig
  | archiveDir
deriving DecidableEq, Repr

/-- How the process leaves the command: the `RunE` closure returns (its
deferred functions having run), or `os.Exit` terminates the process
(deferred functions do not run). -/
inductive Outcome where
  | returned (err : Option String)
  | exited (code : Nat)
deriving DecidableEq, Repr

/-- The environment of the command body: flag values and the outcome of
each fallible step it performs. -/
structure CmdEnv where
  overwrite : Bool
  outputFile : String
  outputStat : StatResult
  configParse : Except String Unit
  mkTempDir : Except String Unit
  newRegistry : Except String Unit
  registryServe : Except String Unit
  copyLoops : Except String Unit
  writeConfig : Except String Unit
  archive : Except String Unit

/-- Lines 56-218 of the `RunE` closure, after the output-file existence
check: `pre` is the trace accumulated by the check.  The
`defer os.RemoveAll(tempDir)` registered at line 77 runs at every
`return` after it; the serve goroutine (lines 86-91) calls `os.Exit(2)`
when `ListenAndServe` fails, which by Go semantics terminates the
process without running deferred functions — the asynchronous failure
is modelled as taking effect right after the registry is started. -/
def runAfterCheck (env : CmdEnv) (pre : List Action) :
    List Action × Outcome :=
  let afterCheck := pre
  match env.configParse with
    | Except.error e =>
      (afterCheck ++ [Action.parseConfig], Outcome.returned (some e))
    | Except.ok _ =>
      match env.mkTempDir with
      | Except.error e =>
        (afterCheck ++ [Action.parseConfig, Action.mkTempDir],
          Outcome.returned (some ("failed to create temporary directory: " ++ e)))
      | Except.ok _ =>
        match env.newRegistry with
        | Except.error e =>
          (afterCheck ++ [Action.parseConfig, Action.mkTempDir,
            Action.startRegistry, Action.removeTempDir],
            Outcome.returned (some ("failed to create local Docker registry: " ++ e)))
        | Except.ok _ =>
          match env.registryServe with
          | Except.error _ =>
            (afterCheck ++ [Action.parseConfig, Action.mkTempDir,
              Action.startRegistry], Outcome.exited 2)
          | Except.ok _ =>
            match env.copyLoops with
            | Except.error e =>
              (afterCheck ++ [Action.parseConfig, Action.mkTempDir,
                Action.startRegistry, Action.copyImages,
                Action.removeTempDir], Outcome.returned (some e))
            | Except.ok _ =>
              match env.writeConfig with
              | Except.error e =>
                (afterCheck ++ [Action.parseConfig, Action.mkTempDir,
                  Action.startRegistry, Action.copyImages,
                  Action.writeSanitizedConfig, Action.removeTempDir],
                  Outcome.returned (some e))
              | Except.ok _ =>
                match env.archive with
                | Except.error e =>
                  (afterCheck ++ [Action.parseConfig, Action.mkTempDir,
                    Action.startRegistry, Action.copyImages,
                    Action.writeSanitizedConfig, Action.archiveDir,
                    Action.removeTempDir],
                    Outcome.returned (some ("failed to create image bundle tarball: " ++ e)))
                | Except.ok _ =>
                  (afterCheck ++ [Action.parseConfig, Action.mkTempDir,
                    Action.startRegistry, Action.copyImages,
                    Action.writeSanitizedConfig, Action.archiveDir,
                    Action.removeTempDir], Outcome.returned none)

/-- The `RunE` closure (lines 36-219): when `--overwrite` is not set,
`os.Stat(outputFile)` is consulted first — an existing file or a stat
failure returns an error before anything else runs; with `--overwrite`
set the check is skipped entirely (lines 41-54). -/
def runCommand (env : CmdEnv) : List Action × Outcome :=
  if env.overwrite then runAfterCheck env []
  else
    match env.outputStat with
    | StatResult.found =>
      ([Action.statOutputFile], Outcome.returned (some (env.outputFile ++
        " already exists: specify --overwrite to overwrite existing file")))
    | StatResult.statFailed e =>
      ([Action.statOutputFile], Outcome.returned
        (some ("failed to check if output file " ++ env.outputFile ++
          " already exists: " ++ e)))
    | StatResult.notFound => runAfterCheck env [Action.statOutputFile]

/-! ### Helper lemmas -/

lemma find?_append_cases {α : Type} (l1 l2 : List α) (p : α → Bool) :
    (l1 ++ l2).find? p =
      match l1.find? p with
      | some a => some a
      | none => l2.find? p := by
  induction l1 with
  | nil => simp
  | cons a l ih =>
    by_cases h : p a
    · simp [h]
    · simp [h, ih]

lemma platformManifests_foldl (acc : String → Option ManifestDescriptor)
    (ms : List ManifestDescriptor) (k : String) :
    (ms.foldl (fun acc m => fun k =>
        if k = srcManifestPlatform m then some m else acc k) acc) k =
      match ms.reverse.find? (fun m => srcManifestPlatform m == k) with
      | some m => some m
      | none => acc k := by
  induction ms generalizing acc with
  | nil => simp
  | cons m ms ih =>
    simp only [List.foldl_cons, List.reverse_cons]
    rw [ih, find?_append_cases]
    cases hf : ms.reverse.find? (fun m => srcManifestPlatform m == k) with
    | some m' => rfl
    | none =>
      by_cases hk : k = srcManifestPlatform m
      · simp [List.find?, hk]
      · have : (srcManifestPlatform m == k) = false := by
          simp [Ne.symm hk]
        simp [List.find?, this, hk]

/-! ### Claims -/

/-- C6: the manifest index maps the canonical key `os/arch[/variant]`
(variant appended only when non-empty) to its entry; with duplicate
keys the later entry in the input sequence overwrites the earlier one
(the lookup finds the last matching entry), and an entry is never
dropped for having an empty digest (the final entry for a key is
returned whatever its digest, in particular when appended last). -/
theorem platformManifests_lastWriteWins :
    (∀ (ms : List ManifestDescriptor) (k : String),
      platformManifests ms k =
        ms.reverse.find? (fun m => srcManifestPlatform m == k))
    ∧ (∀ (ms : List ManifestDescriptor) (m : ManifestDescriptor),
      platformManifests (ms ++ [m]) (srcManifestPlatform m) = some m) := by
  have hmain : ∀ (ms : List ManifestDescriptor) (k : String),
      platformManifests ms k =
        ms.reverse.find? (fun m => srcManifestPlatform m == k) := by
    intro ms k
    rw [platformManifests, platformManifests_foldl]
    cases hf : ms.reverse.find? (fun m => srcManifestPlatform m == k) <;> rfl
  refine ⟨hmain, fun ms m => ?_⟩
  rw [hmain]
  simp

/-- C2 (counterexample): the claim says the variant-v8 retry happens
only when the requested variant is empty, but the code checks only the
architecture — for the requested platform `linux/arm64/v9` absent from
the index, the fallback assignment is performed even though the variant
is non-empty. -/
theorem resolvePlatform_fallback_counterexample :
    (resolvePlatform (fun _ => none)
      (Platform.mk "linux" "arm64" "v9")).fallbackApplied = true
    ∧ (Platform.mk "linux" "arm64" "v9").variant ≠ "" := by
  exact ⟨rfl, by decide⟩

/-- C2 (amended): the variant-v8 retry is performed iff the requested
platform is absent from the index and its arch is `"arm64"`, whatever
its variant; it is attempted at most once (the effective platform is
either the original or the single `v8`-variant update); and for any
other architecture absent from the index no fallback is attempted and
the result is unresolved. -/
theorem resolvePlatform_fallback
    (idx : String → Option ManifestDescriptor) (p0 : Platform) :
    ((resolvePlatform idx p0).fallbackApplied = true ↔
      (idx p0.toString = none ∧ p0.arch = "arm64"))
    ∧ ((resolvePlatform idx p0).p = p0 ∨
        (resolvePlatform idx p0).p = { p0 with variant := "v8" })
    ∧ (idx p0.toString = none → p0.arch ≠ "arm64" →
        (resolvePlatform idx p0).manifest = none ∧
        (resolvePlatform idx p0).fallbackApplied = false) := by
  cases h : idx p0.toString with
  | some m => simp [resolvePlatform, h]
  | none =>
    by_cases ha : p0.arch = "arm64" <;>
      simp [resolvePlatform, h, ha]

/-- Witness for C2: `linux/arm/v7` against an empty index resolves to
nothing and triggers no fallback. -/
theorem resolvePlatform_fallback_witness :
    (resolvePlatform (fun _ => none)
      (Platform.mk "linux" "arm" "v7")).manifest = none
    ∧ (resolvePlatform (fun _ => none)
      (Platform.mk "linux" "arm" "v7")).fallbackApplied = false :=
  (resolvePlatform_fallback (fun _ => none)
    (Platform.mk "linux" "arm" "v7")).2.2 rfl (by decide)

/-- C3: the planned copy is digest-qualified exactly when the
resolution found a manifest with a non-empty digest, and tag-qualified
both when unresolved and when the found manifest's digest is empty;
the `digestFound` flag is set exactly in the digest-qualified case. -/
theorem planCopy_qualification (rn im tg ad : String)
    (r : PlatformResolution) :
    (r.manifest = none →
      (planCopy rn im tg ad r).1.src =
        "docker://" ++ rn ++ "/" ++ im ++ ":" ++ tg
      ∧ (planCopy rn im tg ad r).1.dst =
        "docker://" ++ ad ++ "/" ++ im ++ ":" ++ tg)
    ∧ (∀ m, r.manifest = some m → m.digest = "" →
      (planCopy rn im tg ad r).1.src =
        "docker://" ++ rn ++ "/" ++ im ++ ":" ++ tg
      ∧ (planCopy rn im tg ad r).1.dst =
        "docker://" ++ ad ++ "/" ++ im ++ ":" ++ tg)
    ∧ (∀ m, r.manifest = some m → m.digest ≠ "" →
      (planCopy rn im tg ad r).1.src =
        "docker://" ++ rn ++ "/" ++ im ++ "@" ++ m.digest
      ∧ (planCopy rn im tg ad r).1.dst =
        "docker://" ++ ad ++ "/" ++ im ++ "@" ++ m.digest)
    ∧ ((planCopy rn im tg ad r).2 = true ↔
        ∃ m, r.manifest = some m ∧ m.digest ≠ "") := by
  refine ⟨?_, ?_, ?_, ?_⟩
  · intro h
    simp [planCopy, resolvedDigest, h]
  · intro m h hd
    simp [planCopy, resolvedDigest, h, hd]
  · intro m h hd
    simp [planCopy, resolvedDigest, h, hd]
  · cases h : r.manifest with
    | none => simp [planCopy, resolvedDigest, h]
    | some m =>
      by_cases hd : m.digest = "" <;>
        simp [planCopy, resolvedDigest, h, hd]

/-- Witness for C3: a resolution carrying digest `sha256:aaa` plans a
digest-qualified copy. -/
theorem planCopy_qualification_witness :
    (planCopy "docker.io" "library/nginx" "1.25" "127.0.0.1:5000"
      (PlatformResolution.mk (Platform.mk "linux" "amd64" "")
        (some (ManifestDescriptor.mk "sha256:aaa"
          (ManifestPlatform.mk "linux" "amd64" ""))) false)).1.src =
      "docker://docker.io/library/nginx@sha256:aaa"
    ∧ (planCopy "docker.io" "library/nginx" "1.25" "127.0.0.1:5000"
      (PlatformResolution.mk (Platform.mk "linux" "amd64" "")
        (some (ManifestDescriptor.mk "sha256:aaa"
          (ManifestPlatform.mk "linux" "amd64" ""))) false)).1.dst =
      "docker://127.0.0.1:5000/library/nginx@sha256:aaa" :=
  (planCopy_qualification "docker.io" "library/nginx" "1.25"
    "127.0.0.1:5000" _).2.2.1
    (ManifestDescriptor.mk "sha256:aaa"
      (ManifestPlatform.mk "linux" "amd64" "")) rfl (by decide)

/-- C9: for an absent `arm64` platform with empty variant, the loop
variable's variant is mutated to `"v8"` and never restored — even when
the fallback lookup also fails, the tag-qualified copy's platform
filter carries variant `"v8"`. -/
theorem resolvePlatform_variantMutation
    (idx : String → Option ManifestDescriptor)
    (rn im tg ad : String) (p : Platform)
    (ha : p.arch = "arm64") ( _hv : p.variant = "")
    (h1 : idx p.toString = none)
    (h2 : idx (Platform.toString { p with variant := "v8" }) = none) :
    (resolvePlatform idx p).p = { p with variant := "v8" }
    ∧ (resolvePlatform idx p).manifest = none
    ∧ (planCopy rn im tg ad (resolvePlatform idx p)).1.filterVariant = "v8"
    ∧ (planCopy rn im tg ad (resolvePlatform idx p)).1.src =
        "docker://" ++ rn ++ "/" ++ im ++ ":" ++ tg := by
  have hres : resolvePlatform idx p =
      ⟨{ p with variant := "v8" }, none, true⟩ := by
    rcases p with ⟨pos, parch, pvar⟩
    simp only at ha
    subst ha
    simp [resolvePlatform, h1, h2]
  refine ⟨by rw [hres], by rw [hres], ?_, ?_⟩
  · rw [hres]; rfl
  · rw [hres]
    simp [planCopy, resolvedDigest]

/-- Witness for C9: `linux/arm64` absent from an empty index yields a
tag-qualified copy whose platform filter has variant `"v8"`. -/
theorem resolvePlatform_variantMutation_witness :
    (resolvePlatform (fun _ => none)
      (Platform.mk "linux" "arm64" "")).p =
      Platform.mk "linux" "arm64" "v8"
    ∧ (resolvePlatform (fun _ => none)
      (Platform.mk "linux" "arm64" "")).manifest = none
    ∧ (planCopy "docker.io" "library/nginx" "1.25" "127.0.0.1:5000"
      (resolvePlatform (fun _ => none)
        (Platform.mk "linux" "arm64" ""))).1.filterVariant = "v8"
    ∧ (planCopy "docker.io" "library/nginx" "1.25" "127.0.0.1:5000"
      (resolvePlatform (fun _ => none)
        (Platform.mk "linux" "arm64" ""))).1.src =
      "docker://docker.io/library/nginx:1.25" :=
  resolvePlatform_variantMutation (fun _ => none) "docker.io"
    "library/nginx" "1.25" "127.0.0.1:5000"
    (Platform.mk "linux" "arm64" "") rfl rfl rfl rfl

/-- Whether one platform's resolution yields a non-empty digest — the
value the loop assigns to `digestFound` at line 158. -/
def platformDigestFound (idx : String → Option ManifestDescriptor)
    (p : Platform) : Bool :=
  resolvedDigest (resolvePlatform idx p) ≠ ""

lemma processPlatform_digestFound (idx : String → Option ManifestDescriptor)
    (rn im tg ad : String) (st : TagState) (p : Platform) :
    (processPlatform idx rn im tg ad st p).digestFound =
      platformDigestFound idx p := by
  simp [processPlatform, planCopy, platformDigestFound]

lemma foldl_digestFound_last (idx : String → Option ManifestDescriptor)
    (rn im tg ad : String) (ps : List Platform) (st : TagState) :
    (ps.foldl (processPlatform idx rn im tg ad) st).digestFound =
      match ps.getLast? with
      | none => st.digestFound
      | some p => platformDigestFound idx p := by
  induction ps using List.reverseRecOn with
  | nil => rfl
  | append_singleton l a _ih =>
    simp [List.foldl_append, List.getLast?_concat, processPlatform_digestFound]

lemma processPlatform_manifests_inv (idx : String → Option ManifestDescriptor)
    (rn im tg ad : String) (st : TagState) (p : Platform)
    ( _h : st.digestFound = true → st.manifests ≠ []) :
    (processPlatform idx rn im tg ad st p).digestFound = true →
    (processPlatform idx rn im tg ad st p).manifests ≠ [] := by
  intro hd
  rw [processPlatform_digestFound] at hd
  have hm : ∃ m, (resolvePlatform idx p).manifest = some m := by
    cases hn : (resolvePlatform idx p).manifest with
    | none =>
      rw [platformDigestFound, resolvedDigest, hn] at hd
      simp at hd
    | some m => exact ⟨m, rfl⟩
  obtain ⟨m, hm⟩ := hm
  have : platformDigestFound idx p = true := hd
  simp only [processPlatform, planCopy, platformDigestFound] at this ⊢
  simp [this, hm]

lemma foldl_manifests_inv (idx : String → Option ManifestDescriptor)
    (rn im tg ad : String) :
    ∀ (ps : List Platform) (st : TagState),
      (st.digestFound = true → st.manifests ≠ []) →
      ((ps.foldl (processPlatform idx rn im tg ad) st).digestFound = true →
        (ps.foldl (processPlatform idx rn im tg ad) st).manifests ≠ []) := by
  intro ps
  induction ps with
  | nil => intro st h; exact h
  | cons p ps ih =>
    intro st h
    exact ih _ (processPlatform_manifests_inv idx rn im tg ad st p h)

/-- C1 (counterexample): with a source manifest list containing only
`linux/amd64` and requested platforms `[linux/amd64, linux/s390x]`, the
destination manifest list receives one entry (so it is non-empty) yet
`digestFound` — and with it the publish decision at line 186 — is
`false`, because the flag is overwritten by the last iteration. -/
theorem shouldPublish_counterexample :
    shouldPublish (processTag
      (platformManifests [ManifestDescriptor.mk "sha256:aaa"
        (ManifestPlatform.mk "linux" "amd64" "")])
      "docker.io" "library/nginx" "1.25" "127.0.0.1:5000"
      [Platform.mk "linux" "amd64" "", Platform.mk "linux" "s390x" ""]) = false
    ∧ (processTag
      (platformManifests [ManifestDescriptor.mk "sha256:aaa"
        (ManifestPlatform.mk "linux" "amd64" "")])
      "docker.io" "library/nginx" "1.25" "127.0.0.1:5000"
      [Platform.mk "linux" "amd64" "", Platform.mk "linux" "s390x" ""]).manifests
      ≠ [] := by
  exact ⟨rfl, by decide⟩

/-- C1 (amended): the destination manifest list is published iff the
**last** requested platform of the sequence resolved with a non-empty
digest — the per-iteration `digestFound` flag is overwritten, so the
publish decision reflects only the final platform; publishing still
implies at least one entry was appended, and in particular nothing is
published when zero platforms resolved with a digest. -/
theorem shouldPublish_lastPlatform (idx : String → Option ManifestDescriptor)
    (rn im tg ad : String) (ps : List Platform) :
    (shouldPublish (processTag idx rn im tg ad ps) = true ↔
      ∃ p, ps.getLast? = some p ∧
        resolvedDigest (resolvePlatform idx p) ≠ "")
    ∧ (shouldPublish (processTag idx rn im tg ad ps) = true →
      (processTag idx rn im tg ad ps).manifests ≠ []) := by
  constructor
  · rw [shouldPublish, processTag, foldl_digestFound_last]
    cases hl : ps.getLast? with
    | none => simp [initTagState]
    | some p => simp [platformDigestFound]
  · exact fun h =>
      foldl_manifests_inv idx rn im tg ad ps initTagState (by simp [initTagState]) h

/-- Witness for C1 (amended): with the single requested platform
`linux/amd64` resolving to digest `sha256:aaa`, the publish decision is
taken and the accumulated manifest list is non-empty. -/
theorem shouldPublish_lastPlatform_witness :
    (processTag
      (platformManifests [ManifestDescriptor.mk "sha256:aaa"
        (ManifestPlatform.mk "linux" "amd64" "")])
      "docker.io" "library/nginx" "1.25" "127.0.0.1:5000"
      [Platform.mk "linux" "amd64" ""]).manifests ≠ [] :=
  (shouldPublish_lastPlatform
    (platformManifests [ManifestDescriptor.mk "sha256:aaa"
      (ManifestPlatform.mk "linux" "amd64" "")])
    "docker.io" "library/nginx" "1.25" "127.0.0.1:5000"
    [Platform.mk "linux" "amd64" ""]).2 (by decide)

/-- C4: an unresolved platform is non-fatal — a warning is recorded, a
tag-qualified copy (with the effective platform as filter) is still
planned, no entry is appended to the destination manifest list, and
the loop goes on with the remaining platforms; an error-free tag also
lets the run continue with the subsequent tags. -/
theorem processPlatform_unresolvedNonFatal
    (idx : String → Option ManifestDescriptor)
    (rn im tg ad : String) (st : TagState) (p : Platform)
    (h : (resolvePlatform idx p).manifest = none) :
    (processPlatform idx rn im tg ad st p).manifests = st.manifests
    ∧ (processPlatform idx rn im tg ad st p).warnings =
        st.warnings ++ [(resolvePlatform idx p).p]
    ∧ (processPlatform idx rn im tg ad st p).copies =
        st.copies ++ [CopyRequest.mk
          ("docker://" ++ rn ++ "/" ++ im ++ ":" ++ tg)
          ("docker://" ++ ad ++ "/" ++ im ++ ":" ++ tg)
          (resolvePlatform idx p).p.os (resolvePlatform idx p).p.arch
          (resolvePlatform idx p).p.variant]
    ∧ (∀ xs ys, processTag idx rn im tg ad (xs ++ ys) =
        ys.foldl (processPlatform idx rn im tg ad)
          (processTag idx rn im tg ad xs))
    ∧ (∀ (env : Env) (ps : List Platform) (c : TagRef) (cs : List TagRef)
        (tr : List Event),
        runTag env c.registryName c.imageName c.imageTag ad ps =
          (tr, Except.ok ()) →
        runTags env ad ps (c :: cs) =
          (tr ++ (runTags env ad ps cs).1, (runTags env ad ps cs).2)) := by
  refine ⟨?_, ?_, ?_, ?_, ?_⟩
  · simp [processPlatform, planCopy, resolvedDigest, h]
  · simp [processPlatform, planCopy, h]
  · simp [processPlatform, planCopy, resolvedDigest, h]
  · intro xs ys
    simp [processTag, List.foldl_append]
  · intro env ps c cs tr htag
    simp [runTags, htag]

/-- Witness for C4: a `windows/amd64` request against an empty index
leaves the manifest accumulator unchanged, records a warning, and still
plans a tag-qualified copy. -/
theorem processPlatform_unresolvedNonFatal_witness :
    (processPlatform (fun _ => none) "docker.io" "library/nginx" "1.25"
      "127.0.0.1:5000" initTagState
      (Platform.mk "windows" "amd64" "")).manifests = initTagState.manifests
    ∧ (processPlatform (fun _ => none) "docker.io" "library/nginx" "1.25"
      "127.0.0.1:5000" initTagState
      (Platform.mk "windows" "amd64" "")).warnings =
        initTagState.warnings ++
          [(resolvePlatform (fun _ => none)
            (Platform.mk "windows" "amd64" "")).p] :=
  ⟨(processPlatform_unresolvedNonFatal (fun _ => none) "docker.io"
      "library/nginx" "1.25" "127.0.0.1:5000" initTagState
      (Platform.mk "windows" "amd64" "") rfl).1,
   (processPlatform_unresolvedNonFatal (fun _ => none) "docker.io"
      "library/nginx" "1.25" "127.0.0.1:5000" initTagState
      (Platform.mk "windows" "amd64" "") rfl).2.1⟩

lemma runPlatforms_events (env : Env) (idx : String → Option ManifestDescriptor)
    (rn im tg ad : String) :
    ∀ (ps : List Platform) (st : TagState) (ev : Event),
      ev ∈ (runPlatforms env idx rn im tg ad st ps).1 →
      ∃ s d, ev = Event.copy s d := by
  intro ps
  induction ps with
  | nil =>
    intro st ev h
    simp [runPlatforms] at h
  | cons p ps ih =>
    intro st ev h
    simp only [runPlatforms] at h
    cases hc : env.copy (planCopy rn im tg ad (resolvePlatform idx p)).1 with
    | error e =>
      rw [hc] at h
      simp at h
      exact ⟨_, _, h⟩
    | ok u =>
      rw [hc] at h
      simp at h
      rcases h with h | h
      · exact ⟨_, _, h⟩
      · exact ih _ ev h

/-- C5: the orchestration is fail-fast — a tag that errors stops the
whole run with exactly that tag's trace (no later tag, image or
registry is touched); a copy error stops the platform loop at once (no
event after the failing copy); when the platform loop errors the tag
ends right there, its trace holds only copy events after the inspect,
so the manifest-list publish for the in-flight tag is never attempted;
and an inspect error likewise returns at once. -/
theorem runTags_failFast :
    (∀ (env : Env) (ad : String) (ps : List Platform) (c : TagRef)
      (cs : List TagRef) (tr : List Event) (e : String),
      runTag env c.registryName c.imageName c.imageTag ad ps =
        (tr, Except.error e) →
      runTags env ad ps (c :: cs) = (tr, Except.error e))
    ∧ (∀ (env : Env) (idx : String → Option ManifestDescriptor)
      (rn im tg ad : String) (st : TagState) (p : Platform)
      (ps : List Platform) (e : String),
      env.copy (planCopy rn im tg ad (resolvePlatform idx p)).1 =
        Except.error e →
      runPlatforms env idx rn im tg ad st (p :: ps) =
        ([Event.copy (planCopy rn im tg ad (resolvePlatform idx p)).1.src
          (planCopy rn im tg ad (resolvePlatform idx p)).1.dst],
          Except.error e))
    ∧ (∀ (env : Env) (rn im tg ad : String) (ps : List Platform)
      (ms : List ManifestDescriptor) (tr : List Event) (e : String),
      env.inspect ("docker://" ++ rn ++ "/" ++ im ++ ":" ++ tg) =
        Except.ok ms →
      runPlatforms env (platformManifests ms) rn im tg ad initTagState ps =
        (tr, Except.error e) →
      runTag env rn im tg ad ps =
        (Event.inspect ("docker://" ++ rn ++ "/" ++ im ++ ":" ++ tg) :: tr,
          Except.error e)
      ∧ ∀ d, Event.copyManifest d ∉ tr)
    ∧ (∀ (env : Env) (rn im tg ad : String) (ps : List Platform) (e : String),
      env.inspect ("docker://" ++ rn ++ "/" ++ im ++ ":" ++ tg) =
        Except.error e →
      runTag env rn im tg ad ps =
        ([Event.inspect ("docker://" ++ rn ++ "/" ++ im ++ ":" ++ tg)],
          Except.error e))
    ∧ (∀ (env : Env) (ad : String) (ps : List Platform)
      (cs1 cs2 : List TagRef) (tr : List Event) (e : String),
      runTags env ad ps cs1 = (tr, Except.error e) →
      runTags env ad ps (cs1 ++ cs2) = (tr, Except.error e)) := by
  refine ⟨?_, ?_, ?_, ?_, ?_⟩
  · intro env ad ps c cs tr e htag
    simp [runTags, htag]
  · intro env idx rn im tg ad st p ps e hc
    simp [runPlatforms, hc]
  · intro env rn im tg ad ps ms tr e hin hrun
    constructor
    · simp [runTag, hin, hrun]
    · intro d hd
      have hmem : Event.copyManifest d ∈
          (runPlatforms env (platformManifests ms) rn im tg ad
            initTagState ps).1 := by
        rw [hrun]
        exact hd
      obtain ⟨s, d', hev⟩ := runPlatforms_events env (platformManifests ms)
        rn im tg ad ps initTagState _ hmem
      simp at hev
  · intro env rn im tg ad ps e hin
    simp [runTag, hin]
  · intro env ad ps cs1
    induction cs1 with
    | nil =>
      intro cs2 tr e h
      simp [runTags] at h
    | cons c cs1 ih =>
      intro cs2 tr e h
      simp only [runTags, List.cons_append] at h ⊢
      cases hres : (runTag env c.registryName c.imageName c.imageTag ad ps).2 with
      | error e' =>
        rw [hres] at h
        exact h
      | ok u =>
        cases u
        rw [hres] at h
        have h' : ((runTag env c.registryName c.imageName c.imageTag ad
              ps).1 ++ (runTags env ad ps cs1).1,
            (runTags env ad ps cs1).2) = (tr, Except.error e) := h
        cases hr2 : (runTags env ad ps cs1).2 with
        | error e2 =>
          rw [hr2] at h'
          simp only [Prod.mk.injEq] at h'
          obtain ⟨htr, he⟩ := h'
          injection he with he2
          show ((runTag env c.registryName c.imageName c.imageTag ad
              ps).1 ++ (runTags env ad ps (cs1 ++ cs2)).1,
            (runTags env ad ps (cs1 ++ cs2)).2) = (tr, Except.error e)
          rw [ih cs2 (runTags env ad ps cs1).1 e2 (by rw [← hr2])]
          simp [htr, he2]
        | ok u2 =>
          rw [hr2] at h'
          simp at h'

/-- Witness for C5: a copy tool that always fails stops the run on the
first platform of the first tag; the second tag contributes nothing to
the trace and no manifest-list publish happens. -/
theorem runTags_failFast_witness :
    runTags
      (Env.mk (fun _ => Except.ok []) (fun _ => Except.error "copy failed")
        (fun _ _ => Except.ok ()))
      "a" [Platform.mk "linux" "amd64" ""]
      [TagRef.mk "r" "i" "t", TagRef.mk "r2" "i2" "t2"] =
      ([Event.inspect "docker://r/i:t",
        Event.copy "docker://r/i:t" "docker://a/i:t"],
        Except.error "copy failed") :=
  runTags_failFast.1
    (Env.mk (fun _ => Except.ok []) (fun _ => Except.error "copy failed")
      (fun _ _ => Except.ok ()))
    "a" [Platform.mk "linux" "amd64" ""] (TagRef.mk "r" "i" "t")
    [TagRef.mk "r2" "i2" "t2"]
    [Event.inspect "docker://r/i:t",
      Event.copy "docker://r/i:t" "docker://a/i:t"]
    "copy failed" (by rfl)

/-- C10: the operator-supplied requested-platforms list is threaded
through every tag of the run unchanged — the loop body only ever
assigns to its per-iteration copy of the element, so each subsequent
tag, image, and registry iterates over the original list. -/
theorem processAllTags_platformsUnchanged
    (inspectRes : TagRef → List ManifestDescriptor) (ad : String)
    (cs : List TagRef) (platforms : List Platform) :
    (processAllTags inspectRes ad cs platforms).1 = platforms := by
  induction cs generalizing platforms with
  | nil => rfl
  | cons c cs ih => simp [processAllTags, platformLoop, ih]

lemma runAfterCheck_cleanup (env : CmdEnv) (pre : List Action)
    (hpre1 : Action.mkTempDir ∉ pre) (hpre2 : Action.removeTempDir ∉ pre) :
    (env.mkTempDir = Except.ok () →
      Action.mkTempDir ∈ (runAfterCheck env pre).1 →
      ∀ e, (runAfterCheck env pre).2 = Outcome.returned e →
      Action.removeTempDir ∈ (runAfterCheck env pre).1)
    ∧ ((runAfterCheck env pre).2 = Outcome.exited 2 →
      Action.removeTempDir ∉ (runAfterCheck env pre).1) := by
  rcases env with ⟨ov, of, ost, cp, mk, nr, rs, cl, wc, ar⟩
  cases cp <;> cases mk <;> cases nr <;> cases rs <;> cases cl <;>
    cases wc <;> cases ar <;>
    exact ⟨fun hmk hmem e hret => by simp_all [runAfterCheck],
      fun hexit => by simp_all [runAfterCheck]⟩

/-- C8 (counterexample): the claim includes the path where the staging
registry fails to serve and the process exits with code 2 — but
`os.Exit` does not run deferred functions, so on that path the
temporary directory created earlier is never removed. -/
theorem runCommand_cleanup_counterexample :
    (runCommand (CmdEnv.mk true "images.tar" StatResult.notFound
      (Except.ok ()) (Except.ok ()) (Except.ok ()) (Except.error "bind")
      (Except.ok ()) (Except.ok ()) (Except.ok ()))).2 = Outcome.exited 2
    ∧ Action.mkTempDir ∈ (runCommand (CmdEnv.mk true "images.tar"
      StatResult.notFound (Except.ok ()) (Except.ok ()) (Except.ok ())
      (Except.error "bind") (Except.ok ()) (Except.ok ())
      (Except.ok ()))).1
    ∧ Action.removeTempDir ∉ (runCommand (CmdEnv.mk true "images.tar"
      StatResult.notFound (Except.ok ()) (Except.ok ()) (Except.ok ())
      (Except.error "bind") (Except.ok ()) (Except.ok ())
      (Except.ok ()))).1 := by
  exact ⟨rfl, by decide, by decide⟩

/-- C8 (amended): on every path where the command function itself
returns — success or any error — a run that proceeded past creation of
the temporary directory removes it (the deferred `os.RemoveAll` runs);
but on the path where the staging registry fails to serve, the process
exits with code 2 and the deferred removal does not run. -/
theorem runCommand_cleanup (env : CmdEnv) :
    (env.mkTempDir = Except.ok () →
      Action.mkTempDir ∈ (runCommand env).1 →
      ∀ e, (runCommand env).2 = Outcome.returned e →
      Action.removeTempDir ∈ (runCommand env).1)
    ∧ ((runCommand env).2 = Outcome.exited 2 →
      Action.removeTempDir ∉ (runCommand env).1) := by
  by_cases hov : env.overwrite
  · have hrw : runCommand env = runAfterCheck env [] := by
      simp [runCommand, hov]
    rw [hrw]
    exact runAfterCheck_cleanup env [] (by simp) (by simp)
  · cases host : env.outputStat with
    | found =>
      have hrw : runCommand env = ([Action.statOutputFile],
          Outcome.returned (some (env.outputFile ++
            " already exists: specify --overwrite to overwrite existing file"))) := by
        simp [runCommand, hov, host]
      rw [hrw]
      exact ⟨fun _ hmem => by simp at hmem, fun hexit => by simp at hexit⟩
    | statFailed e =>
      have hrw : runCommand env = ([Action.statOutputFile],
          Outcome.returned (some ("failed to check if output file " ++
            env.outputFile ++ " already exists: " ++ e))) := by
        simp [runCommand, hov, host]
      rw [hrw]
      exact ⟨fun _ hmem => by simp at hmem, fun hexit => by simp at hexit⟩
    | notFound =>
      have hrw : runCommand env = runAfterCheck env [Action.statOutputFile] := by
        simp [runCommand, hov, host]
      rw [hrw]
      exact runAfterCheck_cleanup env [Action.statOutputFile]
        (by simp) (by simp)

/-- Witness for C8 (amended): a fully successful run removes the
temporary directory before returning. -/
theorem runCommand_cleanup_witness :
    Action.removeTempDir ∈ (runCommand (CmdEnv.mk false "images.tar"
      StatResult.notFound (Except.ok ()) (Except.ok ()) (Except.ok ())
      (Except.ok ()) (Except.ok ()) (Except.ok ()) (Except.ok ()))).1 :=
  (runCommand_cleanup (CmdEnv.mk false "images.tar" StatResult.notFound
    (Except.ok ()) (Except.ok ()) (Except.ok ()) (Except.ok ())
    (Except.ok ()) (Except.ok ()) (Except.ok ()))).1 rfl (by decide)
    none rfl

/-- C7: without `--overwrite`, an existing output file fails the
command with a trace containing nothing but the stat — before parsing
configuration, creating the temporary directory, starting the staging
registry, or issuing any copy; with `--overwrite` set the existence
check never runs. -/
theorem runCommand_outputExists :
    (∀ env : CmdEnv, env.overwrite = false →
      env.outputStat = StatResult.found →
      runCommand env = ([Action.statOutputFile],
        Outcome.returned (some (env.outputFile ++
          " already exists: specify --overwrite to overwrite existing file"))))
    ∧ (∀ env : CmdEnv, env.overwrite = true →
      Action.statOutputFile ∉ (runCommand env).1) := by
  constructor
  · intro env h1 h2
    simp [runCommand, h1, h2]
  · intro env h1
    have hrw : runCommand env = runAfterCheck env [] := by
      simp [runCommand, h1]
    rw [hrw]
    rcases env with ⟨ov, of, ost, cp, mk, nr, rs, cl, wc, ar⟩
    cases cp <;> cases mk <;> cases nr <;> cases rs <;> cases cl <;>
      cases wc <;> cases ar <;> simp [runAfterCheck]

/-- Witness for C7: an existing `images.tar` without `--overwrite`
aborts with only the stat in the trace. -/
theorem runCommand_outputExists_witness :
    runCommand (CmdEnv.mk false "images.tar" StatResult.found
      (Except.ok ()) (Except.ok ()) (Except.ok ()) (Except.ok ())
      (Except.ok ()) (Except.ok ()) (Except.ok ())) =
      ([Action.statOutputFile], Outcome.returned (some ("images.tar" ++
        " already exists: specify --overwrite to overwrite existing file"))) :=
  runCommand_outputExists.1 (CmdEnv.mk false "images.tar" StatResult.found
    (Except.ok ()) (Except.ok ()) (Except.ok ()) (Except.ok ())
    (Except.ok ()) (Except.ok ()) (Except.ok ())) rfl rfl

end ImageBundle
